import Mathlib

/-
Verification of the FoodSnap sync/reconciliation subsystem (src/app.js and
the Cloudflare worker in src/unnamed/part_002) against its specification.

Modelling conventions (shallow embedding):
* JS numbers are modelled as rationals (ℚ).  Every numeric value reached by
  the verified code paths is a dyadic rational, exactly representable in an
  IEEE double, so ℚ arithmetic agrees with the JS evaluation.
* `Math.round` (round half toward +infinity) is `jsRound`.
* Timestamps (`Date.now()`, `eaten_at`) are integer milliseconds since the
  epoch; calendar-day keys are integer day numbers (`fdiv 86400000`), and the
  YYYY-MM-DD rendering of a day number is `civilFromDays` (the standard
  days-to-civil-date algorithm, faithful to both `toISOString().slice(0,10)`
  and `getFullYear/getMonth/getDate` formatting).
* `cryptoRandomId()` is modelled by a monotone counter threaded through the
  state: the n-th generated id is `Ident.fresh n`; ids of the form
  `cloud_<serverId>` assigned by `mergeCloudMeals` are `Ident.cloudTag`.
* `localStorage` writes are fallible: operations that call `saveJSON` either
  take an oracle `persist : Logs → Except SaveErr Unit` standing for the
  outcome of the durable write, or (for the quota-eviction analysis) use the
  explicit capacity model `saveLogsJSON` below.
* Strings carried only for display (names, toast texts) are abstracted to
  numeric codes or to the constructor choice of an inductive type.
-/

namespace FoodSnap

/-- JS Math.round: round half toward positive infinity. -/
def jsRound (q : ℚ) : ℤ := ⌊q + 1/2⌋

/-- app.js round0: Math.round. -/
def round0 (q : ℚ) : ℤ := jsRound q

/-- app.js round1: Math.round(n * 10) / 10. -/
def round1 (q : ℚ) : ℚ := (jsRound (q * 10) : ℚ) / 10

/-- app.js clamp: (n, a, b) => Math.max(a, Math.min(b, n)). -/
def clamp (n a b : ℚ) : ℚ := max a (min b n)

inductive MealType
  | breakfast
  | lunch
  | dinner
  | snack
deriving DecidableEq, Repr

inductive Sex
  | male
  | female
deriving DecidableEq, Repr

inductive GoalType
  | cut
  | bulk
  | maintain
deriving DecidableEq, Repr

/-- Rounded daily targets, the return value of calcGoals / computeTargets. -/
structure Goals where
  kcal : ℤ
  p : ℤ
  c : ℤ
  f : ℤ
deriving DecidableEq, Repr

/-- Unrounded kcal/macro totals (summaries, goal rows read back as numbers). -/
structure Totals where
  kcal : ℚ
  p : ℚ
  c : ℚ
  f : ℚ
deriving DecidableEq, Repr

/-- Profile as read from the profile form / stored profile row. -/
structure Profile where
  goalType : GoalType
  sex : Sex
  age : ℚ
  height : ℚ
  weight : ℚ
  activity : ℚ
deriving DecidableEq, Repr

/-- Macro ratio triple used by calcGoals / computeTargets. -/
structure Ratio where
  p : ℚ
  c : ℚ
  f : ℚ
deriving DecidableEq, Repr

/-- app.js calcGoals (lines 639-670).  `profile.activity || 1.2` is the JS
falsy-default: activity 0 falls back to 1.2. -/
def calcGoals (profile : Profile) : Goals :=
  let w := profile.weight
  let h := profile.height
  let a := profile.age
  let s : ℚ := if profile.sex = Sex.male then 5 else -161
  let bmr := 10 * w + 6.25 * h - 5 * a + s
  let act := if profile.activity = 0 then 1.2 else profile.activity
  let tdee := bmr * act
  let kcal :=
    if profile.goalType = GoalType.cut then tdee * 0.85
    else if profile.goalType = GoalType.bulk then tdee * 1.10
    else tdee
  let ratio : Ratio :=
    if profile.goalType = GoalType.cut then ⟨0.30, 0.40, 0.30⟩
    else if profile.goalType = GoalType.bulk then ⟨0.25, 0.50, 0.25⟩
    else ⟨0.25, 0.45, 0.30⟩
  { kcal := round0 kcal
    p := round0 (kcal * ratio.p / 4)
    c := round0 (kcal * ratio.c / 4)
    f := round0 (kcal * ratio.f / 9) }

/-- Cloudflare worker computeTargets (src/unnamed/part_002 lines 176-209).
`Number(profile.weight) || 70` etc. are the JS falsy defaults. -/
def computeTargets (goalType : GoalType) (profile : Profile) : Goals :=
  let weight := if profile.weight = 0 then 70 else profile.weight
  let height := if profile.height = 0 then 175 else profile.height
  let age := if profile.age = 0 then 30 else profile.age
  let activity := if profile.activity = 0 then 1.375 else profile.activity
  let s : ℚ := if profile.sex = Sex.male then 5 else -161
  let bmr := 10 * weight + 6.25 * height - 5 * age + s
  let tdee := bmr * activity
  let kcal :=
    if goalType = GoalType.cut then tdee * 0.85
    else if goalType = GoalType.bulk then tdee * 1.10
    else tdee
  let ratio : Ratio :=
    if goalType = GoalType.cut then ⟨0.30, 0.40, 0.30⟩
    else if goalType = GoalType.bulk then ⟨0.25, 0.50, 0.25⟩
    else ⟨0.25, 0.45, 0.30⟩
  { kcal := jsRound kcal
    p := jsRound (kcal * ratio.p / 4)
    c := jsRound (kcal * ratio.c / 4)
    f := jsRound (kcal * ratio.f / 9) }

/-- Targets written exactly from the specification text of §4.2 / claim C7:
BMR by Mifflin-St Jeor, TDEE = BMR × activityFactor, goal multiplier,
fixed macro split, Atwater division, all outputs rounded to nearest integer.
This definition follows the spec words and is compared with `calcGoals`. -/
def calcGoalsSpec (profile : Profile) : Goals :=
  let bmr := 10 * profile.weight + 6.25 * profile.height - 5 * profile.age
      + (if profile.sex = Sex.male then (5 : ℚ) else -161)
  let tdee := bmr * profile.activity
  let kcal :=
    match profile.goalType with
    | GoalType.cut => tdee * 0.85
    | GoalType.bulk => tdee * 1.10
    | GoalType.maintain => tdee * 1.00
  let ratio : Ratio :=
    match profile.goalType with
    | GoalType.cut => ⟨0.30, 0.40, 0.30⟩
    | GoalType.bulk => ⟨0.25, 0.50, 0.25⟩
    | GoalType.maintain => ⟨0.25, 0.45, 0.30⟩
  { kcal := jsRound kcal
    p := jsRound (kcal * ratio.p / 4)
    c := jsRound (kcal * ratio.c / 4)
    f := jsRound (kcal * ratio.f / 9) }

/-- The concrete profile of spec §8.7 / claim C7. -/
def exampleProfile : Profile :=
  { goalType := GoalType.maintain
    sex := Sex.male
    age := 30
    height := 175
    weight := 70
    activity := 1.375 }

/-- Outcome of buildAdvice, abstracting the per-language message strings to
the chosen rule and the numeric amounts interpolated into the message. -/
inductive Advice
  | exerciseRecovery (burned : ℚ) (remaining : ℤ)
  | overage (excess : ℤ)
  | proteinSuggest (deficit : ℤ) (add : ℤ)
  | lowFat (excess : ℤ)
  | carbTopUp (add : ℤ)
  | onTrack
deriving DecidableEq, Repr

/-- app.js buildAdvice (lines 698-754).  `g` is profile.goals, `daySum` the
day's summed intake, `exerciseKcal` the day's exercise burn. -/
def buildAdvice (g : Totals) (daySum : Totals) (exerciseKcal : ℚ) : Advice :=
  let netKcal := daySum.kcal - exerciseKcal
  let dk := g.kcal - netKcal
  let dp := g.p - daySum.p
  let dc := g.c - daySum.c
  let df := g.f - daySum.f
  if exerciseKcal > 200 ∧ dk > 200 then
    Advice.exerciseRecovery exerciseKcal (round0 dk)
  else if dk < -150 then
    Advice.overage (round0 (-dk))
  else if dp > 20 then
    Advice.proteinSuggest (round0 dp) (round0 (min dp 35))
  else if df < -15 then
    Advice.lowFat (round0 (-df))
  else if dc < -40 ∧ dk > 150 then
    Advice.carbTopUp (round0 (min (-dc) 80))
  else
    Advice.onTrack

/-- Advice ladder written exactly from the words of claim C8: rules (1)-(5)
only, with no rule before rule (1).  Compared against `buildAdvice`. -/
def buildAdviceClaim (g : Totals) (daySum : Totals) (exerciseKcal : ℚ) : Advice :=
  let net := daySum.kcal - exerciseKcal
  let dk := g.kcal - net
  let dp := g.p - daySum.p
  let dc := g.c - daySum.c
  if net - g.kcal > 150 then Advice.overage (round0 (net - g.kcal))
  else if dp > 20 then Advice.proteinSuggest (round0 dp) (round0 (min dp 35))
  else if daySum.f - g.f > 15 then Advice.lowFat (round0 (daySum.f - g.f))
  else if dc > 40 ∧ dk > 150 then Advice.carbTopUp (round0 (min dc 80))
  else Advice.onTrack

/-- Claim-C8 ladder amended to what the code evaluates: a priority-0 rule
(exerciseKcal > 200 together with remaining net budget > 200 fires an
exercise-recovery message before rule (1)), and rule (4) conditioned on carb
EXCESS beyond 40 g (the code tests dc < −40 with dc = target − intake,
despite its message text describing a deficit). -/
def buildAdviceClaimAmended (g : Totals) (daySum : Totals) (exerciseKcal : ℚ) : Advice :=
  let net := daySum.kcal - exerciseKcal
  let dk := g.kcal - net
  let dp := g.p - daySum.p
  if exerciseKcal > 200 ∧ dk > 200 then Advice.exerciseRecovery exerciseKcal (round0 dk)
  else if net - g.kcal > 150 then Advice.overage (round0 (net - g.kcal))
  else if dp > 20 then Advice.proteinSuggest (round0 dp) (round0 (min dp 35))
  else if daySum.f - g.f > 15 then Advice.lowFat (round0 (daySum.f - g.f))
  else if daySum.c - g.c > 40 ∧ dk > 150 then Advice.carbTopUp (round0 (min (daySum.c - g.c) 80))
  else Advice.onTrack

/-- Record / item identifiers.  `fresh n` is the n-th value produced by
cryptoRandomId() in a session (UUIDs never repeat, modelled by the counter);
`cloudTag sid` is the string `cloud_<sid>` assigned by mergeCloudMeals. -/
inductive Ident
  | fresh (n : ℕ)
  | cloudTag (serverId : ℕ)
deriving DecidableEq, Repr

/-- Reference per-100g macro row (FOOD_DB entry / estimate fallback). -/
structure Per100 where
  kcal : ℚ
  p : ℚ
  c : ℚ
  f : ℚ
deriving DecidableEq, Repr

/-- A food item of a meal.  Superset of the shapes built by
makeItemFromFood / makeEstimatedItem (weight_g, kcal, p, c, f) and by
mergeCloudMeals (portion_g, kcal, protein_g as p, carbs_g as c, fat_g as f);
fields a given constructor does not set keep their defaults. -/
structure Item where
  id : Ident
  name : ℕ
  confidence : ℚ := 0
  weight_g : ℚ := 0
  portion_g : ℚ := 0
  manual : Bool := false
  kcal : ℚ := 0
  p : ℚ := 0
  c : ℚ := 0
  f : ℚ := 0
  per100 : Per100 := ⟨0, 0, 0, 0⟩
deriving DecidableEq, Repr

/-- app.js sumMealItems (lines 672-683). -/
def sumMealItems (items : List Item) : Totals :=
  items.foldl (fun acc it => ⟨acc.kcal + it.kcal, acc.p + it.p, acc.c + it.c, acc.f + it.f⟩)
    ⟨0, 0, 0, 0⟩

/-- A stored meal record (an element of State.logs[day]); also the shape of
State.pendingMeal drafts.  `image` models presence of imageDataUrl,
`cloudId` the server-assigned id once synced. -/
structure LocalMeal where
  id : Ident
  cloudId : Option ℕ := none
  mealType : MealType
  createdAt : ℤ
  image : Bool := false
  items : List Item := []
  summary : Totals := ⟨0, 0, 0, 0⟩
  synced : Bool := false
deriving DecidableEq, Repr

/-- State.logs: a JS object mapping day keys to arrays of records, modelled
as an association list in key-insertion order (day keys are integer day
numbers, see `civilFromDays` for rendering to YYYY-MM-DD). -/
def Logs := List (ℤ × List LocalMeal)

instance : DecidableEq Logs := by
  unfold Logs
  infer_instance

/-- logs[day], or [] when the key is absent. -/
def getDay (logs : Logs) (d : ℤ) : List LocalMeal :=
  match logs with
  | [] => []
  | (k, v) :: rest => if k = d then v else getDay rest d

/-- logs[day] = l : replaces the first binding of the key, or appends a new
binding at the end (JS property insertion order). -/
def setDay (logs : Logs) (d : ℤ) (l : List LocalMeal) : Logs :=
  match logs with
  | [] => [(d, l)]
  | (k, v) :: rest => if k = d then (d, l) :: rest else (k, v) :: setDay rest d l

/-- Day membership (dayKey in logs). -/
def hasDay (logs : Logs) (d : ℤ) : Bool :=
  match logs with
  | [] => false
  | (k, _) :: rest => k = d ∨ hasDay rest d

/-- Epoch day number of a millisecond timestamp: the UTC calendar day,
exactly what toISOString().slice(0, 10) renders. -/
def utcDayNumber (t : ℤ) : ℤ := Int.fdiv t 86400000

/-- Epoch day number of the device-local calendar day of timestamp `t` on a
device whose UTC offset is `offsetMin` minutes: exactly the day that
todayKey() (app.js lines 498-503) formats from getFullYear/getMonth/getDate. -/
def localDayNumber (offsetMin t : ℤ) : ℤ := Int.fdiv (t + offsetMin * 60000) 86400000

/-- Civil date (year, month, day) of an epoch day number; the standard
days-from-civil inverse, so two day keys render to the same YYYY-MM-DD
string iff their civil triples are equal. -/
def civilFromDays (z0 : ℤ) : ℤ × ℤ × ℤ :=
  let z := z0 + 719468
  let era := Int.fdiv z 146097
  let doe := z - era * 146097
  let yoe := (doe - doe / 1460 + doe / 36524 - doe / 146096) / 365
  let y := yoe + era * 400
  let doy := doe - (365 * yoe + yoe / 4 - yoe / 100)
  let mp := (5 * doy + 2) / 153
  let d := doy - (153 * mp + 2) / 5 + 1
  let m := mp + (if mp < 10 then 3 else -9)
  (y + (if m ≤ 2 then 1 else 0), m, d)

/-- Day key under which mergeCloudMeals files a remote record:
new Date(meal.eaten_at).toISOString().slice(0, 10), the UTC calendar date. -/
def cloudDayKeyOfMillis (t : ℤ) : ℤ × ℤ × ℤ := civilFromDays (utcDayNumber t)

/-- Day key under which local saves file a record: todayKey(), the
device-local calendar date of the save instant. -/
def todayKeyOfMillis (offsetMin t : ℤ) : ℤ × ℤ × ℤ := civilFromDays (localDayNumber offsetMin t)

/-- A remote meal row as returned by /api/meals/sync. -/
structure CloudItem where
  name : ℕ
  portion_g : ℚ
  kcal : ℚ
  protein_g : ℚ
  carbs_g : ℚ
  fat_g : ℚ
deriving DecidableEq, Repr

structure CloudMeal where
  id : ℕ
  meal_type : MealType
  eaten_at : ℤ
  items : List CloudItem
  totals : Option Totals
deriving DecidableEq, Repr

/-- The identity test of mergeCloudMeals (app.js lines 1928-1931):
existing cloudId equals the remote id, OR |local createdAt − remote
eaten_at| < 60000 ms AND same meal type. -/
def matchesCloud (m : LocalMeal) (cm : CloudMeal) : Bool :=
  m.cloudId = some cm.id ∨ ((m.createdAt - cm.eaten_at).natAbs < 60000 ∧ m.mealType = cm.meal_type)

/-- per100 back-computed by mergeCloudMeals for a pulled item (JS falsy
tests on the macro amounts and `portion_g || 100`). -/
def cloudPer100 (it : CloudItem) : Per100 :=
  let base := if it.portion_g = 0 then (100 : ℚ) else it.portion_g
  { kcal := if it.kcal = 0 then 100 else (jsRound (it.kcal / base * 100) : ℚ)
    p := if it.protein_g = 0 then 5 else (jsRound (it.protein_g / base * 100) : ℚ)
    c := if it.carbs_g = 0 then 15 else (jsRound (it.carbs_g / base * 100) : ℚ)
    f := if it.fat_g = 0 then 5 else (jsRound (it.fat_g / base * 100) : ℚ) }

/-- Items of the local view of a pulled meal; each receives a fresh id. -/
def mkCloudItems (ctr : ℕ) : List CloudItem → List Item × ℕ
  | [] => ([], ctr)
  | it :: rest =>
    let item : Item :=
      { id := Ident.fresh ctr
        name := it.name
        portion_g := it.portion_g
        kcal := it.kcal
        p := it.protein_g
        c := it.carbs_g
        f := it.fat_g
        per100 := cloudPer100 it }
    let (restItems, c2) := mkCloudItems (ctr + 1) rest
    (item :: restItems, c2)

/-- The localMeal object mergeCloudMeals builds for a remote record
(app.js lines 1933-1960). -/
def mkCloudLocalMeal (cm : CloudMeal) (ctr : ℕ) : LocalMeal × ℕ :=
  let (its, c2) := mkCloudItems ctr cm.items
  ({ id := Ident.cloudTag cm.id
     cloudId := some cm.id
     mealType := cm.meal_type
     createdAt := cm.eaten_at
     items := its
     summary := match cm.totals with
       | some t => t
       | none => ⟨0, 0, 0, 0⟩
     image := false
     synced := true }, c2)

/-- JS object spread { ...existing, ...localMeal }: every field set by the
remote-derived localMeal overwrites the existing entry; imageDataUrl is the
one modelled field localMeal does not carry, so it is preserved. -/
def overwriteMerge (old incoming : LocalMeal) : LocalMeal :=
  { incoming with image := old.image }

/-- findIndex-update-else-push of mergeCloudMeals on one day list: overwrite
the first record matching `cm`, or push the new record at the end. -/
def mergeIntoDay (cm : CloudMeal) (lm : LocalMeal) : List LocalMeal → List LocalMeal
  | [] => [lm]
  | m :: rest =>
    if matchesCloud m cm then overwriteMerge m lm :: rest
    else m :: mergeIntoDay cm lm rest

/-- Loop body of mergeCloudMeals for one remote record. -/
def mergeOneCloudMeal (logs : Logs) (cm : CloudMeal) (ctr : ℕ) : Logs × ℕ :=
  let day := utcDayNumber cm.eaten_at
  let logs1 := if hasDay logs day then logs else setDay logs day []
  let (lm, c2) := mkCloudLocalMeal cm ctr
  (setDay logs1 day (mergeIntoDay cm lm (getDay logs1 day)), c2)

/-- Ascending createdAt order used for the final per-day sort. -/
def createdLe (a b : LocalMeal) : Prop := a.createdAt ≤ b.createdAt

instance : DecidableRel createdLe := fun a b => Int.decLe a.createdAt b.createdAt

instance : IsTotal LocalMeal createdLe := ⟨fun a b => Int.le_total a.createdAt b.createdAt⟩

instance : IsTrans LocalMeal createdLe := ⟨fun _ _ _ => Int.le_trans⟩

/-- app.js mergeCloudMeals (lines 1915-1978): fold the remote records into
the logs, then re-sort every day ascending by createdAt.  Array.sort is a
stable sort, hence equal to insertion sort under `createdLe`. -/
def mergeCloudMeals (logs : Logs) (cms : List CloudMeal) (ctr : ℕ) : Logs × ℕ :=
  let folded := cms.foldl (fun (p : Logs × ℕ) cm => mergeOneCloudMeal p.1 cm p.2) (logs, ctr)
  (folded.1.map (fun kv => (kv.1, List.insertionSort createdLe kv.2)), folded.2)

/-- Error kinds thrown by saveJSON (app.js lines 514-565). -/
inductive SaveErr
  | storageUnavailable
  | storageFull
  | otherErr
deriving DecidableEq, Repr

/-- Outcome oracle for a durable saveJSON(LS_KEYS.logs, ·) write, used where
only success/failure order matters (the capacity ladder itself is modelled
separately by `saveLogsJSON`). -/
def Persist := Logs → Except SaveErr Unit

/-- The always-succeeding store (storage available and within quota). -/
def persistOk : Persist := fun _ => Except.ok ()

/-- Signal surfaced by the edit-save path: gtmEvent action and toast text
distinguish a clean in-place edit from the saved-as-new fallback. -/
inductive SaveSignal
  | savedNew
  | edited
  | newFromEdit
  | rejectedNoItems
deriving DecidableEq, Repr

/-- In-memory application state relevant to the save/sync flows.  `ctr` is
the id-generation counter (see `Ident`), `today` the current local day
number read by todayKey(). -/
structure AppState where
  logs : Logs
  pendingMeal : Option LocalMeal := none
  editingMealId : Option Ident := none
  ctr : ℕ := 0
  today : ℤ := 0

/-- app.js onAnalyze (lines 1559-1599): builds the draft State.pendingMeal
with a freshly generated id and clears editing mode. -/
def onAnalyze (st : AppState) (items : List Item) (mt : MealType) (now : ℤ) (img : Bool) :
    AppState :=
  { st with
    pendingMeal := some
      { id := Ident.fresh st.ctr
        createdAt := now
        mealType := mt
        image := img
        items := items
        summary := sumMealItems items }
    editingMealId := none
    ctr := st.ctr + 1 }

/-- app.js savePendingMealSync (lines 1750-1775): clone the draft, assign a
fresh id, build the new logs value, persist it first, and only on success
update the in-memory state.  A persistence exception leaves State.logs and
State.pendingMeal untouched (the id randomness was consumed either way). -/
def savePendingMealSync (persist : Persist) (st : AppState) (mt : MealType) :
    AppState × Except SaveErr Unit :=
  match st.pendingMeal with
  | none => (st, Except.ok ())
  | some pm =>
    let meal := { pm with id := Ident.fresh st.ctr, mealType := mt,
                          summary := sumMealItems pm.items }
    let newList := meal :: getDay st.logs st.today
    let newLogs := setDay st.logs st.today newList
    match persist newLogs with
    | Except.error e => ({ st with ctr := st.ctr + 1 }, Except.error e)
    | Except.ok _ =>
      ({ st with logs := newLogs, pendingMeal := none, ctr := st.ctr + 1 }, Except.ok ())

/-- Replace the first record whose id is `eid` (findIndex ≥ 0 branch of the
edit path); none when no record has that id. -/
def replaceFirstById (eid : Ident) (updated : LocalMeal) : List LocalMeal →
    Option (List LocalMeal)
  | [] => none
  | m :: rest =>
    if m.id = eid then some (updated :: rest)
    else (replaceFirstById eid updated rest).map (m :: ·)

/-- Remove the first record whose id is `mid` (arr.splice(idx, 1)); none
when no record has that id. -/
def removeFirstById (mid : Ident) : List LocalMeal → Option (List LocalMeal)
  | [] => none
  | m :: rest =>
    if m.id = mid then some rest
    else (removeFirstById mid rest).map (m :: ·)

/-- app.js saveMealHandler (lines 1307-1397).  With State.editingMealId set,
replace the record in place when still present (preserving its id and, via
the pendingMeal clone, its cloudId), else fall back to saving as a new
record with a fresh id, surfacing the distinct `newFromEdit` signal; without
editing mode, delegate to savePendingMealSync.  Memory is updated only after
the durable write succeeds. -/
def saveMealHandler (persist : Persist) (st : AppState) (mt : MealType) :
    AppState × Except SaveErr SaveSignal :=
  match st.pendingMeal with
  | none => (st, Except.ok SaveSignal.rejectedNoItems)
  | some pm =>
    if pm.items = [] then (st, Except.ok SaveSignal.rejectedNoItems)
    else
      match st.editingMealId with
      | some eid =>
        let updated := { pm with id := eid, mealType := mt,
                                 summary := sumMealItems pm.items }
        let arr := getDay st.logs st.today
        match replaceFirstById eid updated arr with
        | some arr2 =>
          let newLogs := setDay st.logs st.today arr2
          match persist newLogs with
          | Except.error e => (st, Except.error e)
          | Except.ok _ =>
            ({ st with logs := newLogs, editingMealId := none, pendingMeal := none },
             Except.ok SaveSignal.edited)
        | none =>
          let updated2 := { updated with id := Ident.fresh st.ctr }
          let arr2 := updated2 :: arr
          let newLogs := setDay st.logs st.today arr2
          match persist newLogs with
          | Except.error e => ({ st with ctr := st.ctr + 1 }, Except.error e)
          | Except.ok _ =>
            ({ st with logs := newLogs, editingMealId := none, pendingMeal := none,
                       ctr := st.ctr + 1 },
             Except.ok SaveSignal.newFromEdit)
      | none =>
        let (st2, r) := savePendingMealSync persist st mt
        (st2, r.map (fun _ => SaveSignal.savedNew))

/-- The view/edit entry (app.js lines 2195-2208): State.pendingMeal becomes
a deep clone of the stored record, State.editingMealId its id. -/
def openEdit (st : AppState) (d : ℤ) (mid : Ident) : AppState :=
  match (getDay st.logs d).find? (fun x => x.id = mid) with
  | none => st
  | some meal => { st with pendingMeal := some meal, editingMealId := some mid }

/-- Reviewing-stage edits (weight sliders, item delete, manual add) touch
only pendingMeal.items; the summary is recomputed by renderResultSheet.
Record-level fields (cloudId in particular) are untouched. -/
def editItems (st : AppState) (f : List Item → List Item) : AppState :=
  { st with
    pendingMeal := st.pendingMeal.map
      (fun pm => { pm with items := f pm.items, summary := sumMealItems (f pm.items) }) }

/-- app.js clear-today handler (lines 1255-1267): persist the emptied day
first; on an exception the in-memory logs stay as they were. -/
def clearToday (persist : Persist) (st : AppState) : AppState × Except SaveErr Unit :=
  let newLogs := setDay st.logs st.today []
  match persist newLogs with
  | Except.error e => (st, Except.error e)
  | Except.ok _ => ({ st with logs := newLogs }, Except.ok ())

/-- app.js delete handler (lines 2150-2187): splice the record out, persist,
and only then update memory; a missing id or a failed write mutates
nothing.  (The best-effort cloud DELETE is outside the local state.) -/
def deleteMeal (persist : Persist) (st : AppState) (d : ℤ) (mid : Ident) :
    AppState × Except SaveErr Bool :=
  let arr := getDay st.logs d
  match removeFirstById mid arr with
  | none => (st, Except.ok false)
  | some arr2 =>
    let newLogs := setDay st.logs d arr2
    match persist newLogs with
    | Except.error e => (st, Except.error e)
    | Except.ok _ => ({ st with logs := newLogs }, Except.ok true)

/-- An entry of the fs_pending_sync queue: a meal plus its attempt counter. -/
structure PendingEntry where
  meal : LocalMeal
  syncAttempts : ℕ
deriving DecidableEq, Repr

/-- Content of localStorage key fs_pending_sync. -/
def SyncStore := List PendingEntry

instance : DecidableEq SyncStore := by
  unfold SyncStore
  infer_instance

/-- app.js markMealForSync (lines 1811-1815): reload the queue and append
the meal with syncAttempts = 0. -/
def markMealForSync (m : LocalMeal) (store : SyncStore) : SyncStore :=
  List.append store [PendingEntry.mk m 0]

/-- app.js syncMealToBackend (lines 1778-1809).  `push m = true` models a
2xx response from POST /api/meals.  Every failure is caught inside the
function itself: the meal is re-queued via markMealForSync with attempts 0
and `none` (JS null) is returned — no exception escapes to the caller. -/
def syncMealToBackend (push : LocalMeal → Bool) (m : LocalMeal) (store : SyncStore) :
    SyncStore × Option Unit :=
  if push m then (store, some ())
  else (markMealForSync m store, none)

/-- The for-loop of syncPendingMeals.  The catch block that would increment
syncAttempts and keep the entry (app.js lines 1826-1831) only runs when
syncMealToBackend throws, which it never does, so stillPending stays
unchanged across every iteration. -/
def sweepLoop (push : LocalMeal → Bool) :
    List PendingEntry → SyncStore → List PendingEntry → SyncStore × List PendingEntry
  | [], store, still => (store, still)
  | e :: rest, store, still =>
    let step := syncMealToBackend push e.meal store
    sweepLoop push rest step.1 still

/-- app.js syncPendingMeals (lines 1818-1834): load the queue, sweep it, and
overwrite fs_pending_sync with stillPending. -/
def syncPendingMeals (push : LocalMeal → Bool) (store : SyncStore) : SyncStore :=
  if store = [] then store
  else (sweepLoop push store store []).2

/-- Strip the embedded image from a record (meal.imageDataUrl = null). -/
def stripImage (m : LocalMeal) : LocalMeal := { m with image := false }

/-- app.js cleanOldImages (lines 607-625): for every stored day whose
distance from today in whole days exceeds `daysToKeep`, null the images of
that day's records.  diffDays is (todayDate − dayDate) / 86400000 on the
UTC-midnight parses of the YYYY-MM-DD keys, i.e. exactly the difference of
day numbers. -/
def cleanOldImages (today : ℤ) (daysToKeep : ℤ) (logs : Logs) : Logs :=
  logs.map (fun kv => if today - kv.1 > daysToKeep then (kv.1, kv.2.map stripImage) else kv)

/-- Serialized-size model of a record: one unit of fixed fields plus 100
units for an embedded image (stands for JSON.stringify length, in which the
data-URL dominates). -/
def mealSize (m : LocalMeal) : ℕ := 1 + (if m.image then 100 else 0)

def daySize (l : List LocalMeal) : ℕ := (l.map mealSize).sum

def logsSize (logs : Logs) : ℕ := (logs.map (fun kv => daySize kv.2)).sum

/-- The localStorage keys relevant to saveJSON(LS_KEYS.logs, ·): the stored
logs plus the sizes of the two non-essential keys (fs_pending_sync,
fs_exercise_v1); `none` models an absent key. -/
structure StoreState where
  logs : Logs
  pendingSyncSize : Option ℕ := none
  exerciseSize : Option ℕ := none
deriving DecidableEq

def otherKeysSize (st : StoreState) : ℕ :=
  st.pendingSyncSize.getD 0 + st.exerciseSize.getD 0

/-- Quota model of localStorage.setItem(LS_KEYS.logs, v): the write succeeds
iff the new total occupancy fits the capacity. -/
def fitsQuota (cap : ℕ) (st : StoreState) (v : Logs) : Bool :=
  logsSize v + otherKeysSize st ≤ cap

/-- app.js cleanStoredImages (lines 568-590): clean the already-persisted
logs value in place (rewriting a key with a strictly smaller value always
fits, so the inner setItem is modelled as succeeding). -/
def cleanStoredImages (today daysToKeep : ℤ) (st : StoreState) : StoreState :=
  { st with logs := cleanOldImages today daysToKeep st.logs }

/-- app.js cleanNonEssentialData (lines 593-604): remove fs_pending_sync and
fs_exercise_v1, but only when the key is present and its data length
exceeds 1000. -/
def cleanNonEssentialData (st : StoreState) : StoreState :=
  { st with
    pendingSyncSize :=
      match st.pendingSyncSize with
      | some n => if n > 1000 then none else some n
      | none => none
    exerciseSize :=
      match st.exerciseSize with
      | some n => if n > 1000 then none else some n
      | none => none }

/-- The progressive-cleanup for-loop of saveJSON over cleanupDays =
[7, 3, 1, 0]: each step cleans both the stored logs and the in-flight
value, then retries; the mutations persist into later steps.  Returns the
resulting store, the (possibly stripped) in-flight value, and whether a
retry succeeded. -/
def cleanupLadder (cap : ℕ) (today : ℤ) :
    List ℤ → StoreState → Logs → StoreState × Logs × Bool
  | [], st, v => (st, v, false)
  | d :: rest, st, v =>
    let st2 := cleanStoredImages today d st
    let v2 := cleanOldImages today d v
    if fitsQuota cap st2 v2 then ({ st2 with logs := v2 }, v2, true)
    else cleanupLadder cap today rest st2 v2

/-- app.js saveJSON for the logs key (lines 514-565): availability probe,
plain write, quota ladder over [7, 3, 1, 0], last-resort purge of the
non-essential keys, and finally the distinct STORAGE_FULL failure. -/
def saveLogsJSON (cap : ℕ) (available : Bool) (today : ℤ) (st : StoreState) (v : Logs) :
    StoreState × Except SaveErr Unit :=
  if !available then (st, Except.error SaveErr.storageUnavailable)
  else if fitsQuota cap st v then ({ st with logs := v }, Except.ok ())
  else
    let step := cleanupLadder cap today [7, 3, 1, 0] st v
    if step.2.2 then (step.1, Except.ok ())
    else
      let st4 := cleanNonEssentialData step.1
      if fitsQuota cap st4 step.2.1 then ({ st4 with logs := step.2.1 }, Except.ok ())
      else (st4, Except.error SaveErr.storageFull)

/-- Result of Number(prompt(...)) for the portion entry: `none` models a
value for which Number.isFinite is false (NaN from a non-numeric string, or
an infinity). -/
def PortionInput := Option ℚ

/-- app.js FOOD_DB row shape (kcal/p/c/f per 100g). -/
structure Food where
  name : ℕ
  kcal : ℚ
  p : ℚ
  c : ℚ
  f : ℚ
deriving DecidableEq, Repr

/-- app.js makeItemFromFood (lines 890-905). -/
def makeItemFromFood (food : Food) (weight_g : ℚ) (confidence : ℚ) (ctr : ℕ) : Item :=
  let factor := weight_g / 100
  { id := Ident.fresh ctr
    name := food.name
    confidence := confidence
    weight_g := weight_g
    manual := false
    kcal := round1 (food.kcal * factor)
    p := round1 (food.p * factor)
    c := round1 (food.c * factor)
    f := round1 (food.f * factor)
    per100 := ⟨food.kcal, food.p, food.c, food.f⟩ }

/-- app.js recalcItem (lines 907-913). -/
def recalcItem (item : Item) : Item :=
  let factor := item.weight_g / 100
  { item with
    kcal := round1 (item.per100.kcal * factor)
    p := round1 (item.per100.p * factor)
    c := round1 (item.per100.c * factor)
    f := round1 (item.per100.f * factor) }

/-- app.js makeEstimatedItem (lines 2217-2232): generic 150/8/15/5 per-100g
fallback, then recalc. -/
def makeEstimatedItem (name : ℕ) (weight_g : ℚ) (ctr : ℕ) : Item :=
  recalcItem
    { id := Ident.fresh ctr
      name := name
      confidence := 0.5
      weight_g := weight_g
      manual := true
      kcal := 0
      p := 0
      c := 0
      f := 0
      per100 := ⟨150, 8, 15, 5⟩ }

/-- The weight computed by the addManualBtn handler (app.js line 1428):
clamp(Number.isFinite(weight) ? weight : 150, 10, 2000). -/
def manualWeight (input : PortionInput) : ℚ :=
  clamp (match input with
         | some w => w
         | none => 150) 10 2000

/-- app.js addManualBtn handler (lines 1424-1440): `found` is the result of
findFoodByName; the built item is marked manual and appended to the
pending meal. -/
def addManualItem (found : Option Food) (name : ℕ) (input : PortionInput) (ctr : ℕ) : Item :=
  let weight_g := manualWeight input
  let item :=
    match found with
    | some food => makeItemFromFood food weight_g 0.6 ctr
    | none => makeEstimatedItem name weight_g ctr
  { item with manual := true }

/-- The always-failing store (quota exhausted beyond recovery). -/
def persistFail : Persist := fun _ => Except.error SaveErr.storageFull

/-- A concrete meal record used by concrete evaluations. -/
def mealA : LocalMeal :=
  { id := Ident.fresh 0
    mealType := MealType.lunch
    createdAt := 0
    summary := ⟨400, 20, 50, 10⟩ }

/-- A concrete record dated day 20000 carrying an embedded image. -/
def imgMealToday : LocalMeal :=
  { id := Ident.fresh 1
    mealType := MealType.dinner
    createdAt := 1728000000000
    image := true
    summary := ⟨600, 30, 70, 20⟩ }

/-- A one-day log whose only record is today's image-carrying record. -/
def logsC6 : Logs := [(20000, [imgMealToday])]

/-- A concrete in-memory state with a pending draft. -/
def stA : AppState :=
  { logs := [(0, [mealA])]
    pendingMeal := some
      { id := Ident.fresh 3
        mealType := MealType.snack
        createdAt := 100
        items := [{ id := Ident.fresh 2, name := 1, kcal := 100, p := 5, c := 10, f := 2 }]
        summary := ⟨100, 5, 10, 2⟩ }
    editingMealId := none
    ctr := 4
    today := 0 }

/-- stA with editing mode targeting mealA. -/
def stB : AppState := { stA with editingMealId := some (Ident.fresh 0) }

/-- A concrete remote record 120 seconds away from mealA. -/
def cloudMeal120 : CloudMeal :=
  { id := 7
    meal_type := MealType.lunch
    eaten_at := 120000
    items := []
    totals := some ⟨500, 25, 60, 15⟩ }

/- ===================== helper lemmas ===================== -/

theorem getDay_setDay_self (logs : Logs) (d : ℤ) (l : List LocalMeal) :
    getDay (setDay logs d l) d = l := by
  induction logs with
  | nil => simp [setDay, getDay]
  | cons kv rest ih =>
    by_cases h : kv.1 = d
    · simp [setDay, getDay, h]
    · simp [setDay, getDay, h, ih]

theorem hasDay_setDay_self (logs : Logs) (d : ℤ) (l : List LocalMeal) :
    hasDay (setDay logs d l) d = true := by
  induction logs with
  | nil => simp [setDay, hasDay]
  | cons kv rest ih =>
    by_cases h : kv.1 = d
    · simp [setDay, hasDay, h]
    · simp [setDay, hasDay, h, ih]

theorem getDay_map_sort (logs : Logs) (d : ℤ) :
    getDay (logs.map (fun kv => (kv.1, List.insertionSort createdLe kv.2))) d
      = List.insertionSort createdLe (getDay logs d) := by
  induction logs with
  | nil => simp [getDay, List.insertionSort]
  | cons kv rest ih =>
    by_cases h : kv.1 = d
    · simp [getDay, h]
    · simp [getDay, h, ih]

theorem replaceFirstById_decomp (eid : Ident) (u orig : LocalMeal) (l₁ l₂ : List LocalMeal)
    (h₁ : ∀ m ∈ l₁, m.id ≠ eid) (h₂ : orig.id = eid) :
    replaceFirstById eid u (l₁ ++ orig :: l₂) = some (l₁ ++ u :: l₂) := by
  induction l₁ with
  | nil => simp [replaceFirstById, h₂]
  | cons m rest ih =>
    have hm : m.id ≠ eid := h₁ m (by simp)
    have := ih (fun x hx => h₁ x (by simp [hx]))
    simp [replaceFirstById, hm, this]

theorem replaceFirstById_none (eid : Ident) (u : LocalMeal) (l : List LocalMeal)
    (h : ∀ m ∈ l, m.id ≠ eid) :
    replaceFirstById eid u l = none := by
  induction l with
  | nil => simp [replaceFirstById]
  | cons m rest ih =>
    have hm : m.id ≠ eid := h m (by simp)
    have := ih (fun x hx => h x (by simp [hx]))
    simp [replaceFirstById, hm, this]

theorem find_first_decomp (p : LocalMeal → Bool) (orig : LocalMeal) (l₁ l₂ : List LocalMeal)
    (h₁ : ∀ m ∈ l₁, p m = false) (h₂ : p orig = true) :
    List.find? p (l₁ ++ orig :: l₂) = some orig := by
  induction l₁ with
  | nil => simp [List.find?, h₂]
  | cons m rest ih =>
    have hm : p m = false := h₁ m (by simp)
    have := ih (fun x hx => h₁ x (by simp [hx]))
    simp [List.find?, hm, this]

theorem mergeIntoDay_no_match (cm : CloudMeal) (lm : LocalMeal) (l : List LocalMeal)
    (h : ∀ m ∈ l, matchesCloud m cm = false) :
    mergeIntoDay cm lm l = l ++ [lm] := by
  induction l with
  | nil => simp [mergeIntoDay]
  | cons m rest ih =>
    have hm : matchesCloud m cm = false := h m (by simp)
    have := ih (fun x hx => h x (by simp [hx]))
    simp [mergeIntoDay, hm, this]

theorem mergeIntoDay_first_match (cm : CloudMeal) (lm m : LocalMeal) (l₁ l₂ : List LocalMeal)
    (h₁ : ∀ x ∈ l₁, matchesCloud x cm = false) (h₂ : matchesCloud m cm = true) :
    mergeIntoDay cm lm (l₁ ++ m :: l₂) = l₁ ++ overwriteMerge m lm :: l₂ := by
  induction l₁ with
  | nil => simp [mergeIntoDay, h₂]
  | cons x rest ih =>
    have hx : matchesCloud x cm = false := h₁ x (by simp)
    have := ih (fun y hy => h₁ y (by simp [hy]))
    simp [mergeIntoDay, hx, this]

theorem jsRound_eq {q : ℚ} {z : ℤ} (h1 : (z : ℚ) ≤ q + 1/2) (h2 : q + 1/2 < (z : ℚ) + 1) :
    jsRound q = z := by
  unfold jsRound
  rw [Int.floor_eq_iff]
  exact ⟨h1, by linarith⟩

/- ===================== claim theorems ===================== -/

/-- C7 counterexample: on the code, the spec profile {male, 30, 175, 70,
1.375, maintain} yields a kcal target of 2267, not the claimed 2301 (the
claim miscomputes the BMR: 10×70 + 6.25×175 − 5×30 + 5 = 1648.75, not
1673.75). -/
theorem calcGoals_example_ne_2301 :
    (calcGoals exampleProfile).kcal = 2267 ∧ (2267 : ℤ) ≠ 2301 := by
  constructor
  · simp [calcGoals, exampleProfile, round0]
    exact jsRound_eq (by norm_num) (by norm_num)
  · decide

/-- C7 amended: the target calculator is the pure function of the profile
described by the claimed formulas (BMR by Mifflin-St Jeor, TDEE = BMR ×
activity, goal multipliers 0.85/1.10/1.00, splits 30/40/30, 25/50/25,
25/45/30, Atwater division, JS rounding); the worker computeTargets agrees
with it whenever no falsy-default field kicks in; and the example profile
yields kcal target round(1648.75 × 1.375) = 2267 with the 25/45/30 split. -/
theorem calcGoals_formula_correct :
    (∀ p : Profile, p.activity ≠ 0 → calcGoals p = calcGoalsSpec p) ∧
    (∀ p : Profile, p.weight ≠ 0 → p.height ≠ 0 → p.age ≠ 0 → p.activity ≠ 0 →
      computeTargets p.goalType p = calcGoals p) ∧
    calcGoals exampleProfile = ⟨2267, 142, 255, 76⟩ := by
  refine ⟨?_, ?_, ?_⟩
  · intro p hact
    unfold calcGoals calcGoalsSpec round0
    cases hg : p.goalType <;> cases hs : p.sex <;>
      simp [hg, hs, hact, Goals.mk.injEq] <;>
      refine ⟨?_, ?_, ?_, ?_⟩ <;> (congr 1; ring)
  · intro p hw hh ha hact
    unfold computeTargets calcGoals round0
    cases hg : p.goalType <;> cases hs : p.sex <;>
      simp [hg, hs, hw, hh, ha, hact]
  · simp [calcGoals, exampleProfile, round0, Goals.mk.injEq]
    refine ⟨?_, ?_, ?_, ?_⟩ <;>
      exact jsRound_eq (by norm_num) (by norm_num)

/-- C7 witness: the amended formula equalities instantiated at the concrete
example profile. -/
theorem calcGoals_formula_correct_witness :
    calcGoals exampleProfile = calcGoalsSpec exampleProfile ∧
    computeTargets exampleProfile.goalType exampleProfile = calcGoals exampleProfile :=
  ⟨calcGoals_formula_correct.1 exampleProfile (by norm_num [exampleProfile]),
   calcGoals_formula_correct.2.1 exampleProfile (by norm_num [exampleProfile])
     (by norm_num [exampleProfile]) (by norm_num [exampleProfile])
     (by norm_num [exampleProfile])⟩

/-- C8 counterexample: with exercise burn 250 kcal, remaining net budget
550 kcal and a 25 g protein deficit, the code fires the priority-0
exercise-recovery rule, while the claimed ladder (no rule before rule (1))
would fire the protein rule. -/
theorem buildAdvice_exercise_rule_first :
    buildAdvice ⟨2000, 120, 220, 60⟩ ⟨1700, 95, 220, 60⟩ 250
      = Advice.exerciseRecovery 250 550 ∧
    buildAdviceClaim ⟨2000, 120, 220, 60⟩ ⟨1700, 95, 220, 60⟩ 250
      = Advice.proteinSuggest 25 25 ∧
    Advice.exerciseRecovery 250 550 ≠ Advice.proteinSuggest 25 25 := by
  refine ⟨?_, ?_, by simp⟩
  · unfold buildAdvice round0
    norm_num
    exact jsRound_eq (by norm_num) (by norm_num)
  · unfold buildAdviceClaim round0
    norm_num
    exact jsRound_eq (by norm_num) (by norm_num)

/-- C8 amended: buildAdvice equals the claimed short-circuit ladder amended
by (a) a priority-0 exercise rule (burn > 200 and remaining net budget >
200) evaluated before rule (1), and (b) rule (4) firing on carb excess
beyond 40 g rather than deficit; in particular intake exceeding the target
by 200 with a 25 g protein deficit (no exercise) still fires rule (1). -/
theorem buildAdvice_ladder_contract :
    (∀ (g ds : Totals) (ex : ℚ), buildAdvice g ds ex = buildAdviceClaimAmended g ds ex) ∧
    buildAdvice ⟨2000, 120, 220, 60⟩ ⟨2200, 95, 220, 60⟩ 0 = Advice.overage 200 := by
  constructor
  · intro g ds ex
    unfold buildAdvice buildAdviceClaimAmended
    have h2 : ds.kcal - ex - g.kcal = -(g.kcal - (ds.kcal - ex)) := by ring
    have h4 : ds.f - g.f = -(g.f - ds.f) := by ring
    have h6 : ds.c - g.c = -(g.c - ds.c) := by ring
    have h1 : ∀ a : ℚ, (-a > 150) ↔ (a < -150) := by
      intro a
      constructor <;> intro h <;> linarith
    have h3 : ∀ a : ℚ, (-a > 15) ↔ (a < -15) := by
      intro a
      constructor <;> intro h <;> linarith
    have h5 : ∀ a : ℚ, (-a > 40) ↔ (a < -40) := by
      intro a
      constructor <;> intro h <;> linarith
    simp only [h2, h4, h6, h1, h3, h5]
  · unfold buildAdvice round0
    norm_num
    exact jsRound_eq (by norm_num) (by norm_num)

/-- C9: a remote record is filed under the UTC calendar day of eaten_at
(mergeCloudMeals always creates/uses that day key), while todayKey files
local saves under the device-local day; for a non-UTC offset (UTC+8) and a
timestamp near midnight the two keys name different calendar dates. -/
theorem dayKey_utc_local_mismatch :
    (∀ (logs : Logs) (cm : CloudMeal) (ctr : ℕ),
      hasDay (mergeOneCloudMeal logs cm ctr).1 (utcDayNumber cm.eaten_at) = true) ∧
    ∃ offsetMin t : ℤ, offsetMin ≠ 0 ∧
      todayKeyOfMillis offsetMin t ≠ cloudDayKeyOfMillis t := by
  constructor
  · intro logs cm ctr
    unfold mergeOneCloudMeal
    by_cases h : hasDay logs (utcDayNumber cm.eaten_at)
    · simp only [h, if_true]
      exact hasDay_setDay_self _ _ _
    · simp only [h]
      simp only [Bool.false_eq_true, if_false]
      exact hasDay_setDay_self _ _ _
  · exact ⟨480, 86000000, by decide, by decide⟩

/-- C10: every item added through the manual-add flow has weight_g in
[10, 2000]; a non-finite portion entry becomes 150 g before clamping, an
in-range entry is kept, and an out-of-range entry is clamped to the nearer
bound. -/
theorem manual_add_weight_clamped :
    ∀ (found : Option Food) (name : ℕ) (input : PortionInput) (ctr : ℕ),
      10 ≤ (addManualItem found name input ctr).weight_g ∧
      (addManualItem found name input ctr).weight_g ≤ 2000 ∧
      (input = none → (addManualItem found name input ctr).weight_g = 150) ∧
      (∀ q : ℚ, input = some q → q < 10 → (addManualItem found name input ctr).weight_g = 10) ∧
      (∀ q : ℚ, input = some q → 2000 < q →
        (addManualItem found name input ctr).weight_g = 2000) ∧
      (∀ q : ℚ, input = some q → 10 ≤ q → q ≤ 2000 →
        (addManualItem found name input ctr).weight_g = q) := by
  intro found name input ctr
  have hw : (addManualItem found name input ctr).weight_g = manualWeight input := by
    cases found <;> simp [addManualItem, makeItemFromFood, makeEstimatedItem, recalcItem]
  have hlo : 10 ≤ manualWeight input := by
    unfold manualWeight clamp
    exact le_max_left _ _
  have hhi : manualWeight input ≤ 2000 := by
    unfold manualWeight clamp
    apply max_le
    · norm_num
    · exact min_le_left _ _
  refine ⟨hw ▸ hlo, hw ▸ hhi, ?_, ?_, ?_, ?_⟩
  · intro h
    subst h
    rw [hw]
    unfold manualWeight clamp
    norm_num
  · intro q h hq
    subst h
    rw [hw]
    unfold manualWeight clamp
    rw [min_eq_right (by linarith), max_eq_left (by linarith)]
  · intro q h hq
    subst h
    rw [hw]
    unfold manualWeight clamp
    rw [min_eq_left (by linarith)]
    exact max_eq_right (by norm_num)
  · intro q h h10 h2000
    subst h
    rw [hw]
    unfold manualWeight clamp
    rw [min_eq_right h2000, max_eq_right h10]

/-- C5: evaluation of the retry sweep at a failing push.  Because
syncMealToBackend catches every push failure internally (re-queueing the
meal with syncAttempts reset to 0 and returning null), the catch block of
syncPendingMeals that would increment the attempt counter never runs: the
sweep's final overwrite of fs_pending_sync with stillPending empties the
queue, so an entry is dropped after a single failed attempt instead of
surviving with an incremented counter until 5 failures.  The same happens
to an entry that has already accumulated 3 attempts. -/
theorem syncPendingMeals_drops_entry_after_one_failure :
    syncPendingMeals (fun _ => false) [PendingEntry.mk mealA 0] = [] ∧
    syncPendingMeals (fun _ => false) [PendingEntry.mk mealA 3] = [] ∧
    ([] : SyncStore) ≠ [PendingEntry.mk mealA 1] ∧
    (syncMealToBackend (fun _ => false) mealA [PendingEntry.mk mealA 0]).2 = none := by
  refine ⟨rfl, rfl, by simp, rfl⟩

/-- C6: evaluation of the eviction ladder at a store whose only record is
dated today and carries an embedded image, with the quota admitting the
record only without its image.  Every ladder step (including the
daysToKeep = 0 step that the code comments as stripping today) uses the
strict test diffDays > daysToKeep, so today's image is never stripped, the
non-essential purge frees nothing, and the write fails with STORAGE_FULL;
stripping today's images (daysToKeep = −1) would have made the value fit. -/
theorem saveJSON_never_strips_today_images :
    (saveLogsJSON 50 true 20000 ⟨logsC6, none, none⟩ logsC6).2
      = Except.error SaveErr.storageFull ∧
    cleanOldImages 20000 0 logsC6 = logsC6 ∧
    fitsQuota 50 ⟨cleanOldImages 20000 (-1) logsC6, none, none⟩
      (cleanOldImages 20000 (-1) logsC6) = true := by
  refine ⟨rfl, ?_, rfl⟩
  show logsC6.map _ = logsC6
  simp [logsC6, cleanOldImages]

/-- C1: the pull-merge contract of mergeCloudMeals.  A remote record is
merged into a day's local record iff some local record matches it, where
matching is exactly serverId (cloudId) equality or same mealType with
createdAt strictly within 60 s of eaten_at; with no match the record is
appended as new carrying the remote serverId; on the first match, the
remote-derived fields overwrite the matched entry while its local image is
preserved; a record 120 s or more away from every same-mealType local
record (and with no cloudId match) never merges; and after a pull every
stored day list is sorted ascending by timestamp. -/
theorem pull_merge_contract :
    (∀ (m : LocalMeal) (cm : CloudMeal),
      matchesCloud m cm = true ↔
        (m.cloudId = some cm.id ∨
          ((m.createdAt - cm.eaten_at).natAbs < 60000 ∧ m.mealType = cm.meal_type))) ∧
    (∀ (cm : CloudMeal) (lm : LocalMeal) (l : List LocalMeal),
      (∀ m ∈ l, matchesCloud m cm = false) → mergeIntoDay cm lm l = l ++ [lm]) ∧
    (∀ (cm : CloudMeal) (lm m : LocalMeal) (l₁ l₂ : List LocalMeal),
      (∀ x ∈ l₁, matchesCloud x cm = false) → matchesCloud m cm = true →
        mergeIntoDay cm lm (l₁ ++ m :: l₂) = l₁ ++ overwriteMerge m lm :: l₂ ∧
        (l₁ ++ overwriteMerge m lm :: l₂).length = (l₁ ++ m :: l₂).length) ∧
    (∀ (cm : CloudMeal) (ctr : ℕ),
      (mkCloudLocalMeal cm ctr).1.cloudId = some cm.id ∧
      (mkCloudLocalMeal cm ctr).1.mealType = cm.meal_type ∧
      (mkCloudLocalMeal cm ctr).1.createdAt = cm.eaten_at ∧
      (mkCloudLocalMeal cm ctr).1.synced = true) ∧
    (∀ old lm : LocalMeal,
      (overwriteMerge old lm).id = lm.id ∧ (overwriteMerge old lm).cloudId = lm.cloudId ∧
      (overwriteMerge old lm).mealType = lm.mealType ∧
      (overwriteMerge old lm).createdAt = lm.createdAt ∧
      (overwriteMerge old lm).items = lm.items ∧
      (overwriteMerge old lm).summary = lm.summary ∧
      (overwriteMerge old lm).synced = lm.synced ∧
      (overwriteMerge old lm).image = old.image) ∧
    (∀ (cm : CloudMeal) (m : LocalMeal),
      m.cloudId ≠ some cm.id →
      (m.mealType = cm.meal_type → 120000 ≤ (m.createdAt - cm.eaten_at).natAbs) →
      matchesCloud m cm = false) ∧
    (∀ (logs : Logs) (cms : List CloudMeal) (ctr : ℕ) (d : ℤ),
      List.Sorted createdLe (getDay (mergeCloudMeals logs cms ctr).1 d)) := by
  refine ⟨?_, ?_, ?_, ?_, ?_, ?_, ?_⟩
  · intro m cm
    unfold matchesCloud
    exact decide_eq_true_iff
  · exact mergeIntoDay_no_match
  · intro cm lm m l₁ l₂ h₁ h₂
    exact ⟨mergeIntoDay_first_match cm lm m l₁ l₂ h₁ h₂, by simp⟩
  · intro cm ctr
    unfold mkCloudLocalMeal
    exact ⟨rfl, rfl, rfl, rfl⟩
  · intro old lm
    unfold overwriteMerge
    exact ⟨rfl, rfl, rfl, rfl, rfl, rfl, rfl, rfl⟩
  · intro cm m hcid hfar
    unfold matchesCloud
    simp only [decide_eq_false_iff_not]
    rintro (h | ⟨hlt, hty⟩)
    · exact hcid h
    · exact absurd hlt (by have := hfar hty; omega)
  · intro logs cms ctr d
    unfold mergeCloudMeals
    rw [getDay_map_sort]
    exact List.sorted_insertionSort createdLe _

/-- C1 witness: concrete instantiation — a remote lunch 120 s away from the
only local lunch (no serverId) does not match it and is appended as a new
record, and a remote lunch 30 s away does match. -/
theorem pull_merge_contract_witness :
    matchesCloud mealA cloudMeal120 = false ∧
    mergeIntoDay cloudMeal120 (mkCloudLocalMeal cloudMeal120 0).1 [mealA]
      = [mealA, (mkCloudLocalMeal cloudMeal120 0).1] ∧
    matchesCloud mealA { cloudMeal120 with eaten_at := 30000 } = true := by
  have h1 : matchesCloud mealA cloudMeal120 = false :=
    pull_merge_contract.2.2.2.2.2.1 cloudMeal120 mealA (by simp [mealA])
      (fun _ => by simp [mealA, cloudMeal120])
  refine ⟨h1, ?_, ?_⟩
  · exact pull_merge_contract.2.1 cloudMeal120 _ [mealA] (by simpa using h1)
  · exact (pull_merge_contract.1 mealA _).mpr
      (Or.inr (by simp [mealA, cloudMeal120]))

/-- C2: savePendingMealSync always stores under a freshly generated localId,
ignoring the id the analysis draft carried; saving the same draft twice
stores two records with distinct fresh ids, neither equal to the draft's
id. -/
theorem save_new_meal_fresh_id :
    ∀ (st : AppState) (items : List Item) (mtc mt1 mt2 : MealType) (now : ℤ) (img : Bool),
      (onAnalyze st items mtc now img).pendingMeal
        = some { id := Ident.fresh st.ctr, createdAt := now, mealType := mtc, image := img,
                 items := items, summary := sumMealItems items } ∧
      (∀ (draft : LocalMeal) (st1 : AppState),
        (onAnalyze st items mtc now img).pendingMeal = some draft →
        st1 = (savePendingMealSync persistOk (onAnalyze st items mtc now img) mt1).1 →
        getDay st1.logs st.today
          = { draft with
              id := Ident.fresh (st.ctr + 1)
              mealType := mt1
              summary := sumMealItems draft.items } :: getDay st.logs st.today ∧
        getDay (savePendingMealSync persistOk
            { st1 with pendingMeal := some draft } mt2).1.logs st.today
          = { draft with
              id := Ident.fresh (st.ctr + 2)
              mealType := mt2
              summary := sumMealItems draft.items }
            :: { draft with
                 id := Ident.fresh (st.ctr + 1)
                 mealType := mt1
                 summary := sumMealItems draft.items } :: getDay st.logs st.today ∧
        draft.id = Ident.fresh st.ctr ∧
        draft.id ≠ Ident.fresh (st.ctr + 1) ∧ draft.id ≠ Ident.fresh (st.ctr + 2) ∧
        Ident.fresh (st.ctr + 1) ≠ Ident.fresh (st.ctr + 2)) := by
  intro st items mtc mt1 mt2 now img
  refine ⟨rfl, ?_⟩
  intro draft st1 hdraft hst1
  simp only [onAnalyze, Option.some.injEq] at hdraft
  subst hdraft
  subst hst1
  refine ⟨?_, ?_, rfl, by simp, by simp, by simp⟩
  · unfold onAnalyze savePendingMealSync persistOk
    dsimp only
    rw [getDay_setDay_self]
  · unfold onAnalyze savePendingMealSync persistOk
    dsimp only
    rw [getDay_setDay_self, getDay_setDay_self]

/-- C2 witness: the double-save at the concrete state stA. -/
theorem save_new_meal_fresh_id_witness :
    getDay (savePendingMealSync persistOk
        (onAnalyze stA [] MealType.snack 100 false) MealType.lunch).1.logs stA.today
      = [{ id := Ident.fresh 5, createdAt := 100, mealType := MealType.lunch, image := false,
           items := [], summary := sumMealItems [] }, mealA] :=
  ((save_new_meal_fresh_id stA [] MealType.snack MealType.lunch MealType.dinner 100
      false).2 _ _ rfl rfl).1

/-- C3: for every state-persisting operation (save new meal, save via the
meal handler, clear today, delete meal), a failed durable write leaves the
in-memory state exactly as it was. -/
theorem memory_updated_only_after_write :
    (∀ (persist : Persist) (st : AppState) (mt : MealType) (e : SaveErr),
      (savePendingMealSync persist st mt).2 = Except.error e →
      (savePendingMealSync persist st mt).1.logs = st.logs ∧
      (savePendingMealSync persist st mt).1.pendingMeal = st.pendingMeal) ∧
    (∀ (persist : Persist) (st : AppState) (mt : MealType) (e : SaveErr),
      (saveMealHandler persist st mt).2 = Except.error e →
      (saveMealHandler persist st mt).1.logs = st.logs ∧
      (saveMealHandler persist st mt).1.pendingMeal = st.pendingMeal ∧
      (saveMealHandler persist st mt).1.editingMealId = st.editingMealId) ∧
    (∀ (persist : Persist) (st : AppState) (e : SaveErr),
      (clearToday persist st).2 = Except.error e →
      (clearToday persist st).1.logs = st.logs) ∧
    (∀ (persist : Persist) (st : AppState) (d : ℤ) (mid : Ident) (e : SaveErr),
      (deleteMeal persist st d mid).2 = Except.error e →
      (deleteMeal persist st d mid).1.logs = st.logs) := by
  refine ⟨?_, ?_, ?_, ?_⟩
  · intro persist st mt e
    unfold savePendingMealSync
    split
    · simp
    · dsimp only
      split <;> simp
  · intro persist st mt e
    unfold saveMealHandler savePendingMealSync
    split
    · simp
    · split
      · simp
      · split
        all_goals try dsimp only
        all_goals try split
        all_goals try dsimp only
        all_goals try split
        all_goals simp [Except.map]
  · intro persist st e
    unfold clearToday
    try dsimp only
    split <;> simp
  · intro persist st d mid e
    unfold deleteMeal
    try dsimp only
    split
    all_goals try dsimp only
    all_goals try split
    all_goals simp

/-- C4: saving an edit.  When a record with the original localId is still in
the current day's list, it is replaced in place: the day's length does not
change, the replacement keeps the original localId and the cloudId carried
by the pending clone, and the clean `edited` signal is surfaced.  When no
record carries that id, exactly one new record with a freshly generated id
is prepended and the distinct `newFromEdit` signal is surfaced.  Composing
the view-to-edit entry with item-level edits shows the cloudId of the
stored original survives the round trip. -/
theorem edit_save_contract :
    (∀ (st : AppState) (mt : MealType) (pm : LocalMeal) (eid : Ident)
       (l₁ l₂ : List LocalMeal) (orig : LocalMeal),
      st.editingMealId = some eid → st.pendingMeal = some pm → pm.items ≠ [] →
      getDay st.logs st.today = l₁ ++ orig :: l₂ →
      (∀ m ∈ l₁, m.id ≠ eid) → orig.id = eid →
      (saveMealHandler persistOk st mt).2 = Except.ok SaveSignal.edited ∧
      getDay (saveMealHandler persistOk st mt).1.logs st.today
        = l₁ ++ { pm with
                  id := eid
                  mealType := mt
                  summary := sumMealItems pm.items } :: l₂ ∧
      (l₁ ++ { pm with
               id := eid
               mealType := mt
               summary := sumMealItems pm.items } :: l₂).length
        = (getDay st.logs st.today).length ∧
      ({ pm with
         id := eid
         mealType := mt
         summary := sumMealItems pm.items } : LocalMeal).cloudId = pm.cloudId) ∧
    (∀ (st : AppState) (mt : MealType) (pm : LocalMeal) (eid : Ident),
      st.editingMealId = some eid → st.pendingMeal = some pm → pm.items ≠ [] →
      (∀ m ∈ getDay st.logs st.today, m.id ≠ eid) →
      (saveMealHandler persistOk st mt).2 = Except.ok SaveSignal.newFromEdit ∧
      getDay (saveMealHandler persistOk st mt).1.logs st.today
        = { pm with
            id := Ident.fresh st.ctr
            mealType := mt
            summary := sumMealItems pm.items } :: getDay st.logs st.today) ∧
    (∀ (st : AppState) (mt : MealType) (mid : Ident) (l₁ l₂ : List LocalMeal)
       (orig : LocalMeal) (f : List Item → List Item),
      getDay st.logs st.today = l₁ ++ orig :: l₂ →
      (∀ m ∈ l₁, m.id ≠ mid) → orig.id = mid → f orig.items ≠ [] →
      (saveMealHandler persistOk (editItems (openEdit st st.today mid) f) mt).2
        = Except.ok SaveSignal.edited ∧
      getDay (saveMealHandler persistOk (editItems (openEdit st st.today mid) f) mt).1.logs
          st.today
        = l₁ ++ { orig with
                  id := mid
                  mealType := mt
                  items := f orig.items
                  summary := sumMealItems (f orig.items) } :: l₂ ∧
      ({ orig with
         id := mid
         mealType := mt
         items := f orig.items
         summary := sumMealItems (f orig.items) } : LocalMeal).cloudId = orig.cloudId) := by
  refine ⟨?_, ?_, ?_⟩
  · intro st mt pm eid l₁ l₂ orig h_eid h_pm h_items h_day h_l1 h_orig
    have hrep := replaceFirstById_decomp eid
      { pm with id := eid, mealType := mt, summary := sumMealItems pm.items }
      orig l₁ l₂ h_l1 h_orig
    refine ⟨?_, ?_, by simp [h_day], rfl⟩ <;>
      simp [saveMealHandler, h_pm, h_items, h_eid, h_day, hrep, persistOk, getDay_setDay_self]
  · intro st mt pm eid h_eid h_pm h_items h_all
    have hrep := replaceFirstById_none eid
      { pm with id := eid, mealType := mt, summary := sumMealItems pm.items }
      (getDay st.logs st.today) h_all
    refine ⟨?_, ?_⟩ <;>
      simp [saveMealHandler, h_pm, h_items, h_eid, hrep, persistOk, getDay_setDay_self]
  · intro st mt mid l₁ l₂ orig f h_day h_l1 h_orig h_items
    have hfind : List.find? (fun x => x.id = mid) (l₁ ++ orig :: l₂) = some orig :=
      find_first_decomp _ orig l₁ l₂ (fun m hm => by simp [h_l1 m hm]) (by simp [h_orig])
    have hopen : openEdit st st.today mid
        = { st with pendingMeal := some orig, editingMealId := some mid } := by
      unfold openEdit
      rw [h_day, hfind]
    have hrep := replaceFirstById_decomp mid
      { orig with
        id := mid
        mealType := mt
        items := f orig.items
        summary := sumMealItems (f orig.items) }
      orig l₁ l₂ h_l1 h_orig
    refine ⟨?_, ?_, rfl⟩ <;>
      simp [hopen, editItems, saveMealHandler, h_items, h_day, hrep, persistOk,
        getDay_setDay_self]

/-- C4 witness: editing mealA at the concrete state stB replaces it in place
with the clean `edited` signal. -/
theorem edit_save_contract_witness :
    (saveMealHandler persistOk stB MealType.dinner).2 = Except.ok SaveSignal.edited :=
  (edit_save_contract.1 stB MealType.dinner _ (Ident.fresh 0) [] [] mealA rfl rfl
    (by simp [stA]) rfl (by simp) rfl).1

/-- C3 witness: the four operations at concrete failing stores. -/
theorem memory_updated_only_after_write_witness :
    ((savePendingMealSync persistFail stA MealType.lunch).1.logs = stA.logs ∧
      (savePendingMealSync persistFail stA MealType.lunch).1.pendingMeal = stA.pendingMeal) ∧
    (clearToday persistFail stA).1.logs = stA.logs ∧
    (deleteMeal persistFail stA 0 (Ident.fresh 0)).1.logs = stA.logs :=
  ⟨memory_updated_only_after_write.1 persistFail stA MealType.lunch SaveErr.storageFull rfl,
   memory_updated_only_after_write.2.2.1 persistFail stA SaveErr.storageFull rfl,
   memory_updated_only_after_write.2.2.2 persistFail stA 0 (Ident.fresh 0)
     SaveErr.storageFull rfl⟩

/-- C10 witness: concrete instances of the clamp contract. -/
theorem manual_add_weight_clamped_witness :
    (addManualItem none 7 none 0).weight_g = 150 ∧
    (addManualItem none 7 (some 5000) 0).weight_g = 2000 ∧
    (addManualItem none 7 (some 3) 0).weight_g = 10 :=
  ⟨(manual_add_weight_clamped none 7 none 0).2.2.1 rfl,
   (manual_add_weight_clamped none 7 (some 5000) 0).2.2.2.2.1 5000 rfl (by norm_num),
   (manual_add_weight_clamped none 7 (some 3) 0).2.2.2.1 3 rfl (by norm_num)⟩

end FoodSnap
